import Mathlib

/-!
# Verification of the GeminiLiveSession duplex-audio component

Shallow embedding of the real-time audio session class found in the
repository (class `GeminiLiveSession`): the playback scheduler driven by
the `nextStartTime` cursor and the `sources` set, interruption handling,
asynchronous inbound-message dispatch, outbound frame sending through the
connection promise, session connection, and teardown (`disconnect`).
Times are modelled as rationals (the device clock `currentTime` and chunk
durations are nonnegative reals in the source; all claims are about
order and exact arithmetic, so `ℚ` is faithful).
-/

namespace LiveAudio

/-- State of the playback scheduler inside `GeminiLiveSession`:
`nextStartTime` is the field of the same name (the cursor), `sources`
models the `Set<AudioBufferSourceNode>` as the list of identifiers of
currently scheduled sources in insertion order, and `nextId` supplies a
fresh identifier for each newly created buffer source. -/
structure PlayState where
  nextStartTime : ℚ
  sources : List ℕ
  nextId : ℕ
  deriving Repr, DecidableEq

/-- A chunk the scheduler has handed to the output device: the buffer
source created by `createBufferSource`, started at `start`
(`source.start(this.nextStartTime)`) and routed through a gain node whose
`gain.value` the code sets before connecting it to the destination. -/
structure ScheduledChunk where
  id : ℕ
  start : ℚ
  gain : ℚ
  deriving Repr, DecidableEq

/-- The constant the code assigns: `gainNode.gain.value = 1.2`. -/
def OUTPUT_GAIN : ℚ := 12 / 10

/-- What a gain node does to the buffer routed through it: each sample is
scaled by the node's gain value. -/
def applyGain (g : ℚ) (samples : List ℚ) : List ℚ :=
  samples.map (fun s => g * s)

/-- Embeds the audio branch of `handleServerMessage` for one inbound
audio payload arriving when the device clock reads `now`:

* `this.nextStartTime = Math.max(this.nextStartTime, this.outputAudioContext.currentTime)`
  runs first (before the decode `await`);
* `decoded = none` models `decodeAudioData` throwing — the `catch` block
  logs and falls through, so only the clamp above has happened;
* `decoded = some dur` models a successful decode of a buffer of duration
  `dur`: a source is created, started at the (clamped) cursor through a
  gain node with `gain.value = 1.2`, the cursor advances by `dur`
  (`this.nextStartTime += audioBuffer.duration`) and the source is added
  to `this.sources`. -/
def handleAudioEvent (st : PlayState) (now : ℚ) (decoded : Option ℚ) :
    PlayState × Option ScheduledChunk :=
  let clamped := max st.nextStartTime now
  match decoded with
  | none => ({ st with nextStartTime := clamped }, none)
  | some dur =>
      ({ nextStartTime := clamped + dur,
         sources := st.sources ++ [st.nextId],
         nextId := st.nextId + 1 },
       some { id := st.nextId, start := clamped, gain := OUTPUT_GAIN })

/-- Embeds the interruption branch of `handleServerMessage`
(`message.serverContent?.interrupted`): every member of `this.sources`
is stopped (`sources.forEach(s => s.stop())`), the set is cleared and
`this.nextStartTime = 0`.  Returns the new state together with the list
of source ids that received a `stop()` call. -/
def handleInterrupt (st : PlayState) : PlayState × List ℕ :=
  ({ nextStartTime := 0, sources := [], nextId := st.nextId }, st.sources)

/-- The `ended` listener: `this.sources.delete(source)` on natural
completion of a chunk. -/
def handleEnded (st : PlayState) (id : ℕ) : PlayState :=
  { st with sources := st.sources.erase id }

/-- Runs a sequence of successfully decoded audio events through the
scheduler; each event is a pair `(now, dur)` of the device-clock reading
at scheduling time and the decoded duration.  Returns the final state and
the start times assigned, in order. -/
def runSchedule : PlayState → List (ℚ × ℚ) → PlayState × List ℚ
  | st, [] => (st, [])
  | st, (now, dur) :: rest =>
      let r := handleAudioEvent st now (some dur)
      let rec_ := runSchedule r.1 rest
      (rec_.1, (r.2.map ScheduledChunk.start).toList ++ rec_.2)

/-- Spec-side description of gapless playback ("each chunk begins exactly
when the previous one ends"): the start times obtained from cursor `c`
and durations `ds` when each chunk starts right at the cursor. -/
def startsFrom : ℚ → List ℚ → List ℚ
  | _, [] => []
  | c, d :: ds => c :: startsFrom (c + d) ds

/-- "No interruption and the device never overtakes the queue": at each
scheduling step the device clock reads at most the current cursor, so
`max(cursor, now) = cursor`.  With all clock readings 0 this is the
claim's "device starts idle at time 0" scenario. -/
def promptArrivals : ℚ → List (ℚ × ℚ) → Prop
  | _, [] => True
  | c, (now, dur) :: rest => now ≤ c ∧ promptArrivals (c + dur) rest

def promptArrivalsDec : ∀ (c : ℚ) (evs : List (ℚ × ℚ)), Decidable (promptArrivals c evs)
  | _, [] => .isTrue trivial
  | c, (now, dur) :: rest =>
      haveI : Decidable (promptArrivals (c + dur) rest) := promptArrivalsDec (c + dur) rest
      inferInstanceAs (Decidable (now ≤ c ∧ promptArrivals (c + dur) rest))

instance (c : ℚ) (evs : List (ℚ × ℚ)) : Decidable (promptArrivals c evs) :=
  promptArrivalsDec c evs

/-- One part of the model turn carried by an inbound message;
`audioData` models the optional chain `inlineData?.data`. -/
structure MsgPart where
  audioData : Option String
  deriving Repr, DecidableEq

/-- An inbound `LiveServerMessage` as `handleServerMessage` reads it: the
list `serverContent?.modelTurn?.parts` and the flag
`serverContent?.interrupted`. -/
structure ServerMsg where
  parts : List MsgPart
  interrupted : Bool
  deriving Repr, DecidableEq

/-- `message.serverContent?.modelTurn?.parts?.[0]?.inlineData?.data`:
the optional-chain read consults only index 0 of the parts list. -/
def extractAudio (m : ServerMsg) : Option String :=
  m.parts.head?.bind MsgPart.audioData

/-- One full synchronous run of `handleServerMessage` on one message:
the audio branch runs first (when `extractAudio` finds a payload), then
the interruption branch.  `dec` is the decoder: it maps the base64
payload to the decoded buffer's duration, `none` when
`decodeAudioData` throws. -/
def handleServerMessage (st : PlayState) (now : ℚ)
    (dec : String → Option ℚ) (m : ServerMsg) :
    PlayState × Option ScheduledChunk :=
  let p := match extractAudio m with
    | some b64 => handleAudioEvent st now (dec b64)
    | none => (st, none)
  if m.interrupted then ((handleInterrupt p.1).1, p.2) else p

/-- An inbound message on the wire, in arrival order.  An audio message
carries the number of event-loop ticks its `decodeAudioData` call takes
to resolve. -/
inductive InboundMsg
  | audio (decodeLatency : ℕ)
  | interrupt
  deriving Repr, DecidableEq

/-- `(arrival index, decode latency)` for each audio message.  Message
`i` is dispatched at tick `i`: the `onmessage` callback invokes
`handleServerMessage(message)` without awaiting it. -/
def audioArrivals (msgs : List InboundMsg) : List (ℕ × ℕ) :=
  msgs.enum.filterMap fun p =>
    match p.2 with
    | .audio lat => some (p.1, lat)
    | .interrupt => none

/-- The tick at which an audio message's chunk is scheduled:
`handleServerMessage` suspends at `await decodeAudioData(...)`, so
`source.start` runs only when the decode resolves, `decodeLatency`
ticks after the dispatch tick. -/
def schedTick (p : ℕ × ℕ) : ℕ := p.1 + p.2

/-- Scheduling precedence between two concurrently decoding audio
messages: earlier decode completion schedules first; on the same tick the
earlier arrival's continuation resumes first. -/
def schedBefore (a b : ℕ × ℕ) : Bool :=
  schedTick a < schedTick b || (schedTick a == schedTick b && a.1 ≤ b.1)

def insertSched (x : ℕ × ℕ) : List (ℕ × ℕ) → List (ℕ × ℕ)
  | [] => [x]
  | y :: ys => if schedBefore x y then x :: y :: ys else y :: insertSched x ys

def sortSched (l : List (ℕ × ℕ)) : List (ℕ × ℕ) :=
  l.foldr insertSched []

/-- Arrival indices of the audio messages in the order in which their
chunks reach `source.start`, given that each message's
`handleServerMessage` call runs concurrently with the others (the
`onmessage` handler does not await it). -/
def scheduleOrder (msgs : List InboundMsg) : List ℕ :=
  (sortSched (audioArrivals msgs)).map Prod.fst

/-- Ticks at which interruption messages take effect: the interruption
branch of `handleServerMessage` contains no `await` when the message
carries no audio, so it completes at its own arrival tick. -/
def interruptEffectTicks (msgs : List InboundMsg) : List ℕ :=
  msgs.enum.filterMap fun p =>
    match p.2 with
    | .audio _ => none
    | .interrupt => some p.1

/-- State of the connection promise (`this.sessionPromise`) as the
outbound path observes it. -/
inductive PromiseState
  | pending        -- `ai.live.connect(...)` not yet settled
  | readySession   -- resolved with a session exposing `sendRealtimeInput`
  | sessionNoSend  -- resolved, but the inner `typeof` check fails
  | rejected       -- the connection promise rejected
  deriving Repr, DecidableEq

/-- Events seen by the outbound audio path: a capture frame (one
`onaudioprocess` callback) or the settling of the connection promise. -/
inductive SendEvent
  | frame (id : ℕ)
  | resolveReady
  | resolveNoSend
  | reject
  deriving Repr, DecidableEq

/-- State of the outbound path.  `queuedThen` holds the `.then`
continuations registered against a still-pending `sessionPromise`;
`sent` lists the `sendRealtimeInput` calls in order. -/
structure SendState where
  promise : PromiseState
  queuedThen : List ℕ
  sent : List ℕ
  deriving Repr, DecidableEq

def initSendState : SendState := ⟨.pending, [], []⟩

/-- Embeds `scriptProcessor.onaudioprocess` and the promise semantics of
`this.sessionPromise?.then(session => { if (...) session.sendRealtimeInput(...) }).catch(...)`:
a frame arriving while the promise is pending registers a continuation
(run when the promise settles); with a ready session it sends; with an
unusable session the inner check drops it; after rejection the `.catch`
handler swallows the rejection silently.  A settled promise never settles
again. -/
def sendStep (s : SendState) : SendEvent → SendState
  | .frame f =>
      match s.promise with
      | .pending => { s with queuedThen := s.queuedThen ++ [f] }
      | .readySession => { s with sent := s.sent ++ [f] }
      | .sessionNoSend => s
      | .rejected => s
  | .resolveReady =>
      match s.promise with
      | .pending =>
          { promise := .readySession, queuedThen := [],
            sent := s.sent ++ s.queuedThen }
      | _ => s
  | .resolveNoSend =>
      match s.promise with
      | .pending => { s with promise := .sessionNoSend, queuedThen := [] }
      | _ => s
  | .reject =>
      match s.promise with
      | .pending => { s with promise := .rejected, queuedThen := [] }
      | _ => s

def runSendFrom (s : SendState) (evs : List SendEvent) : SendState :=
  evs.foldl sendStep s

def runSend (evs : List SendEvent) : SendState :=
  runSendFrom initSendState evs

/-- The capture-frame ids carried by a list of events, in arrival
order. -/
def frameIds (evs : List SendEvent) : List ℕ :=
  evs.filterMap fun e =>
    match e with
    | .frame f => some f
    | _ => none

/-- Outcome of `GeminiLiveSession.connect`, by failure point. -/
inductive ConnectOutcome
  | thrown         -- AudioContext setup failed: `throw new Error("Could not initialize audio")`
  | errorCallback  -- `getUserMedia` failed: `this.onError(new Error("Microphone access denied")); return`
  | opened         -- both acquisitions succeeded: `ai.live.connect(...)` is invoked
  deriving Repr, DecidableEq

/-- `connect` as a function of whether the audio-context setup and the
microphone acquisition succeed, following the source's two guarded
blocks in order. -/
def connect (audioCtxOk micOk : Bool) : ConnectOutcome :=
  if !audioCtxOk then .thrown
  else if !micOk then .errorCallback
  else .opened

/-- Whether `ai.live.connect` (Transport.open) is reached on this
path. -/
def transportOpened : ConnectOutcome → Bool
  | .opened => true
  | _ => false

/-- Error notifications the caller receives on this path: a throw rejects
the caller-awaited `connect()` promise (one notification), the
`errorCallback` path is a single `onError` invocation, and the success
path notifies nothing. -/
def errorCount : ConnectOutcome → ℕ
  | .opened => 0
  | _ => 1

/-- Cumulative release attempts made by `disconnect()` calls on a session
whose `connect` succeeded (stream, both audio contexts and
`sessionPromise` all non-null).  None of those fields is ever nulled and
there is no one-shot latch, so every call re-runs every step. -/
structure TeardownCounts where
  trackStopRounds : ℕ      -- `this.stream?.getTracks().forEach(t => t.stop())`
  nodeDisconnectRounds : ℕ -- `this.cleanupCallbacks.forEach(cb => cb())`
  inputCloseAttempts : ℕ   -- `this.inputAudioContext?.close()`
  outputCloseAttempts : ℕ  -- `this.outputAudioContext?.close()`
  sessionCloseAttempts : ℕ -- `this.sessionPromise?.then(s => s.close())`
  deriving Repr, DecidableEq

def freshTeardown : TeardownCounts := ⟨0, 0, 0, 0, 0⟩

/-- One `disconnect()` call: each step's attempt counter advances. -/
def disconnect (c : TeardownCounts) : TeardownCounts :=
  { trackStopRounds := c.trackStopRounds + 1,
    nodeDisconnectRounds := c.nodeDisconnectRounds + 1,
    inputCloseAttempts := c.inputCloseAttempts + 1,
    outputCloseAttempts := c.outputCloseAttempts + 1,
    sessionCloseAttempts := c.sessionCloseAttempts + 1 }

/-- The five cleanup steps of `disconnect()`, in source order. -/
inductive TeardownStep
  | stopTracks
  | disconnectNodes
  | closeInputCtx
  | closeOutputCtx
  | closeSession
  deriving Repr, DecidableEq

/-- Which collaborator calls fail during a `disconnect()` run.  The two
`AudioContext.close()` calls return promises, so their failures are
asynchronous rejections and never interrupt the sequence; they carry no
flag here. -/
structure TeardownEnv where
  stopTracksThrows : Bool      -- some `t.stop()` throws
  disconnectNodesThrows : Bool -- some cleanup callback throws
  sessionCloseRejects : Bool   -- the session-close chain rejects
  deriving Repr, DecidableEq

/-- One `disconnect()` run under `env`: the steps actually performed and
whether an exception escaped to the caller.  The steps run in source
order with no per-step guard; only the session-close chain ends in
`.catch(() => {})`, so its rejection is swallowed, while a synchronous
throw in an earlier step propagates and skips the remaining steps. -/
def disconnectRun (env : TeardownEnv) : List TeardownStep × Bool :=
  if env.stopTracksThrows then ([.stopTracks], true)
  else if env.disconnectNodesThrows then
    ([.stopTracks, .disconnectNodes], true)
  else
    ([.stopTracks, .disconnectNodes, .closeInputCtx, .closeOutputCtx,
      .closeSession], false)

theorem startsFrom_eq_cumsum : ∀ (ds : List ℚ) (c : ℚ),
    startsFrom c ds = (List.range ds.length).map (fun i => c + (ds.take i).sum)
  | [], _ => by simp [startsFrom]
  | d :: ds, c => by
      have ih := startsFrom_eq_cumsum ds (c + d)
      simp only [startsFrom, ih, List.length_cons, List.range_succ_eq_map,
        List.map_cons, List.map_map, List.take_zero, List.sum_nil,
        add_zero, List.cons.injEq, true_and]
      exact List.map_congr_left fun i _ => by
        simp only [Function.comp_apply, List.take_succ_cons, List.sum_cons]
        ring

theorem runSchedule_spec : ∀ (evs : List (ℚ × ℚ)) (st : PlayState),
    promptArrivals st.nextStartTime evs →
    (runSchedule st evs).2 = startsFrom st.nextStartTime (evs.map Prod.snd) ∧
    (runSchedule st evs).1.nextStartTime = st.nextStartTime + (evs.map Prod.snd).sum
  | [], st, _ => by simp [runSchedule, startsFrom]
  | (now, dur) :: rest, st, h => by
      obtain ⟨h1, h2⟩ := h
      have hmax : max st.nextStartTime now = st.nextStartTime := max_eq_left h1
      have ih := runSchedule_spec rest
        ⟨st.nextStartTime + dur, st.sources ++ [st.nextId], st.nextId + 1⟩
        (by simpa using h2)
      refine ⟨?_, ?_⟩
      · simp [runSchedule, handleAudioEvent, hmax, startsFrom, ih.1]
      · simp [runSchedule, handleAudioEvent, hmax, ih.2, add_assoc]

/-- C1: with no interruption and chunks arriving while the device has not
overtaken the cursor, each chunk starts at `max(cursor, deviceClockNow)`,
the cursor advances to `start + duration`, and the assigned start times
are exactly the running sums of the preceding durations starting from the
initial cursor (gapless, non-overlapping), with the final cursor equal to
the initial cursor plus the total duration. -/
theorem C1_gapless_schedule (st : PlayState) (evs : List (ℚ × ℚ))
    (h : promptArrivals st.nextStartTime evs) :
    (∀ now dur,
        ((handleAudioEvent st now (some dur)).2.map ScheduledChunk.start
            = some (max st.nextStartTime now)) ∧
        (handleAudioEvent st now (some dur)).1.nextStartTime
            = max st.nextStartTime now + dur) ∧
    (runSchedule st evs).2
        = (List.range evs.length).map
            (fun i => st.nextStartTime + ((evs.map Prod.snd).take i).sum) ∧
    (runSchedule st evs).1.nextStartTime
        = st.nextStartTime + (evs.map Prod.snd).sum := by
  obtain ⟨hs, hc⟩ := runSchedule_spec evs st h
  refine ⟨fun now dur => by simp [handleAudioEvent], ?_, hc⟩
  rw [hs, startsFrom_eq_cumsum]
  simp

/-- Witness for C1: the spec's scenario — durations 1.0 s, 0.5 s, 2.0 s,
device idle at time 0 — gives start times 0.0 s, 1.0 s, 1.5 s and final
cursor 3.5 s. -/
theorem C1_gapless_schedule_witness :
    promptArrivals ((⟨0, [], 0⟩ : PlayState).nextStartTime)
      [((0:ℚ), (1:ℚ)), (0, 1/2), (0, 2)] ∧
    (runSchedule ⟨0, [], 0⟩ [((0:ℚ), (1:ℚ)), (0, 1/2), (0, 2)]).2
        = (List.range 3).map
            (fun i => (0:ℚ) + (([1, 1/2, 2] : List ℚ).take i).sum) ∧
    (runSchedule ⟨0, [], 0⟩ [((0:ℚ), (1:ℚ)), (0, 1/2), (0, 2)]).2
        = [0, 1, 3/2] ∧
    (runSchedule ⟨0, [], 0⟩
        [((0:ℚ), (1:ℚ)), (0, 1/2), (0, 2)]).1.nextStartTime = 7/2 :=
  ⟨by norm_num [promptArrivals],
    (C1_gapless_schedule ⟨0, [], 0⟩ _ (by norm_num [promptArrivals])).2.1,
    by norm_num [runSchedule, handleAudioEvent],
    by norm_num [runSchedule, handleAudioEvent]⟩

/-- C2: processing an interruption event returns a `stop()` call for
every member of the scheduled-source set, clears the set to empty and
resets the cursor to the sentinel 0, so the next scheduled chunk starts
exactly at the device's current time (for any nonnegative clock reading),
never at a time derived from the pre-interruption cursor. -/
theorem C2_interrupt_resets (st : PlayState) (now dur : ℚ) (h : 0 ≤ now) :
    (handleInterrupt st).2 = st.sources ∧
    (handleInterrupt st).1.sources = [] ∧
    (handleInterrupt st).1.nextStartTime = 0 ∧
    (handleAudioEvent (handleInterrupt st).1 now (some dur)).2.map
        ScheduledChunk.start = some now := by
  refine ⟨rfl, rfl, rfl, ?_⟩
  simp [handleInterrupt, handleAudioEvent, max_eq_right h]

/-- Witness for C2: interrupting a state with cursor 5 and two scheduled
sources stops both, and a chunk scheduled at device time 7 starts at 7,
not at 5. -/
theorem C2_interrupt_resets_witness :
    (0:ℚ) ≤ 7 ∧
    ((handleInterrupt ⟨5, [0, 1], 2⟩).2 = [0, 1] ∧
     (handleInterrupt (⟨5, [0, 1], 2⟩ : PlayState)).1.sources = [] ∧
     (handleInterrupt (⟨5, [0, 1], 2⟩ : PlayState)).1.nextStartTime = 0 ∧
     (handleAudioEvent (handleInterrupt ⟨5, [0, 1], 2⟩).1 7 (some 1)).2.map
         ScheduledChunk.start = some 7) :=
  ⟨by norm_num, C2_interrupt_resets ⟨5, [0, 1], 2⟩ 7 1 (by norm_num)⟩

/-- C5: a failed decode schedules nothing and leaves the scheduled-source
set untouched, and — the clock being monotone — every subsequent run of
the scheduler is exactly what it would have been had the malformed chunk
never arrived: later valid chunks get the same start times and the
cursor takes the same values. -/
theorem C5_decode_failure_harmless (st : PlayState) (tfail tnext dur : ℚ)
    (rest : List (ℚ × ℚ)) (h : tfail ≤ tnext) :
    (handleAudioEvent st tfail none).2 = none ∧
    (handleAudioEvent st tfail none).1.sources = st.sources ∧
    runSchedule (handleAudioEvent st tfail none).1 ((tnext, dur) :: rest)
      = runSchedule st ((tnext, dur) :: rest) := by
  refine ⟨rfl, rfl, ?_⟩
  have hmax : max (max st.nextStartTime tfail) tnext
      = max st.nextStartTime tnext := by
    rw [max_assoc, max_eq_right h]
  simp [runSchedule, handleAudioEvent, hmax]

/-- Witness for C5: a malformed chunk at device time 1 followed by a
valid chunk at device time 2 behaves exactly like the valid chunk
alone. -/
theorem C5_decode_failure_harmless_witness :
    ((1:ℚ) ≤ 2) ∧
    ((handleAudioEvent ⟨0, [], 0⟩ 1 none).2 = none ∧
     (handleAudioEvent (⟨0, [], 0⟩ : PlayState) 1 none).1.sources = [] ∧
     runSchedule (handleAudioEvent ⟨0, [], 0⟩ 1 none).1 [(2, 1)]
       = runSchedule ⟨0, [], 0⟩ [(2, 1)]) :=
  ⟨by norm_num, C5_decode_failure_harmless ⟨0, [], 0⟩ 1 2 1 [] (by norm_num)⟩

/-- C9: every successfully decoded chunk is routed through a gain node
whose gain is `OUTPUT_GAIN = 1.2`, so the output amplitude is the decoded
samples scaled by 12/10 — not unity gain. -/
theorem C9_gain_boost (st : PlayState) (now dur : ℚ) (samples : List ℚ) :
    (handleAudioEvent st now (some dur)).2.map ScheduledChunk.gain
        = some OUTPUT_GAIN ∧
    OUTPUT_GAIN = 12 / 10 ∧
    applyGain OUTPUT_GAIN samples = samples.map (fun s => 12 / 10 * s) ∧
    OUTPUT_GAIN ≠ 1 := by
  refine ⟨by simp [handleAudioEvent], by norm_num [OUTPUT_GAIN], ?_,
    by norm_num [OUTPUT_GAIN]⟩
  simp [applyGain, OUTPUT_GAIN]

/-- C10: only index 0 of the model turn's parts is consulted for audio: a
message whose first part carries no audio is handled exactly like a
message with no parts at all, whatever its remaining parts carry, and no
chunk is scheduled from it. -/
theorem C10_only_first_part (st : PlayState) (now : ℚ)
    (dec : String → Option ℚ) (restParts : List MsgPart) (intr : Bool) :
    extractAudio ⟨⟨none⟩ :: restParts, intr⟩ = none ∧
    (handleServerMessage st now dec ⟨⟨none⟩ :: restParts, intr⟩).2 = none ∧
    handleServerMessage st now dec ⟨⟨none⟩ :: restParts, intr⟩
      = handleServerMessage st now dec ⟨[], intr⟩ := by
  refine ⟨rfl, ?_, ?_⟩ <;>
    · simp only [handleServerMessage, extractAudio, List.head?_cons,
        Option.bind_some]
      cases intr <;> rfl

/-- C3, evaluated at the failing input: two audio messages arrive in
order; the first message's decode resolves two ticks after dispatch, the
second's resolves immediately.  The chunks reach `source.start` in
decode-completion order `[1, 0]`, not in arrival order `[0, 1]`: the
`onmessage` callback does not await `handleServerMessage`, so nothing
serializes the concurrent decodes. -/
theorem C3_decode_reorder_eval :
    scheduleOrder [InboundMsg.audio 2, InboundMsg.audio 0] = [1, 0] ∧
    scheduleOrder [InboundMsg.audio 2, InboundMsg.audio 0] ≠ [0, 1] := by
  decide

/-- C4, evaluated at the failing input: two `disconnect()` calls on the
same connected session.  The second call attempts `close()` again on both
already-closed audio contexts and re-requests the Transport close — there
is no one-shot latch. -/
theorem C4_disconnect_not_idempotent :
    disconnect (disconnect freshTeardown) = ⟨2, 2, 2, 2, 2⟩ ∧
    (disconnect (disconnect freshTeardown)).inputCloseAttempts = 2 ∧
    (disconnect (disconnect freshTeardown)).outputCloseAttempts = 2 ∧
    (disconnect (disconnect freshTeardown)).sessionCloseAttempts = 2 := by
  decide

/-- C7: whenever either device acquisition fails (audio-context setup or
microphone access), `connect` never reaches `ai.live.connect`
(Transport.open), the session ends in a failure outcome, and the caller
receives exactly one error notification. -/
theorem C7_acquisition_failure (audioCtxOk micOk : Bool)
    (h : audioCtxOk = false ∨ micOk = false) :
    connect audioCtxOk micOk ≠ ConnectOutcome.opened ∧
    transportOpened (connect audioCtxOk micOk) = false ∧
    errorCount (connect audioCtxOk micOk) = 1 := by
  cases audioCtxOk <;> cases micOk <;>
    simp_all [connect, transportOpened, errorCount]

/-- Witness for C7: microphone acquisition fails while the audio contexts
succeed. -/
theorem C7_acquisition_failure_witness :
    ((true : Bool) = false ∨ (false : Bool) = false) ∧
    (connect true false ≠ ConnectOutcome.opened ∧
     transportOpened (connect true false) = false ∧
     errorCount (connect true false) = 1) :=
  ⟨Or.inr rfl, C7_acquisition_failure true false (Or.inr rfl)⟩

/-- C8, counterexample: the claim's independence requirement fails — when
stopping the device tracks throws, `disconnect` performs no further step:
neither the audio contexts nor the Transport are released. -/
theorem C8_step_failure_skips :
    disconnectRun ⟨true, false, false⟩ = ([TeardownStep.stopTracks], true) ∧
    TeardownStep.closeInputCtx ∉ (disconnectRun ⟨true, false, false⟩).1 ∧
    TeardownStep.closeSession ∉ (disconnectRun ⟨true, false, false⟩).1 := by
  decide

/-- C8, amended: whenever neither synchronous step throws, one
`disconnect()` run performs every cleanup step — stopping tracks,
disconnecting the capture graph, closing both audio contexts, closing
the Transport — and raises nothing, even when the guarded Transport-close
chain rejects; but the steps are not individually guarded, so a
synchronous throw in an earlier step skips the remaining ones. -/
theorem C8_teardown_best_effort (env : TeardownEnv)
    (h1 : env.stopTracksThrows = false)
    (h2 : env.disconnectNodesThrows = false) :
    disconnectRun env
      = ([TeardownStep.stopTracks, TeardownStep.disconnectNodes,
          TeardownStep.closeInputCtx, TeardownStep.closeOutputCtx,
          TeardownStep.closeSession], false) := by
  simp [disconnectRun, h1, h2]

/-- Witness for C8: a run in which the Transport-close chain rejects
still performs all five steps and raises nothing. -/
theorem C8_teardown_best_effort_witness :
    (⟨false, false, true⟩ : TeardownEnv).stopTracksThrows = false ∧
    (⟨false, false, true⟩ : TeardownEnv).disconnectNodesThrows = false ∧
    disconnectRun ⟨false, false, true⟩
      = ([TeardownStep.stopTracks, TeardownStep.disconnectNodes,
          TeardownStep.closeInputCtx, TeardownStep.closeOutputCtx,
          TeardownStep.closeSession], false) :=
  ⟨rfl, rfl, C8_teardown_best_effort ⟨false, false, true⟩ rfl rfl⟩

theorem runSendFrom_inv : ∀ (evs : List SendEvent) (s : SendState),
    (s.promise ≠ PromiseState.pending → s.queuedThen = []) →
    ((runSendFrom s evs).promise ≠ PromiseState.pending →
      (runSendFrom s evs).queuedThen = []) ∧
    List.Sublist ((runSendFrom s evs).sent ++ (runSendFrom s evs).queuedThen)
      (s.sent ++ (s.queuedThen ++ frameIds evs))
  | [], s, h => ⟨h, by
      simp only [runSendFrom, List.foldl_nil, frameIds, List.filterMap_nil,
        List.append_nil]
      exact List.Sublist.refl _⟩
  | e :: evs, s, h => by
      have hrw : runSendFrom s (e :: evs) = runSendFrom (sendStep s e) evs := rfl
      rw [hrw]
      cases e with
      | frame f =>
          cases hp : s.promise with
          | pending =>
              have ih := runSendFrom_inv evs (sendStep s (.frame f))
                (by simp [sendStep, hp])
              refine ⟨ih.1, ih.2.trans ?_⟩
              simp only [sendStep, hp, frameIds, List.filterMap_cons,
                List.append_assoc, List.singleton_append]
              exact List.Sublist.refl _
          | readySession =>
              have hq : s.queuedThen = [] := h (by simp [hp])
              have ih := runSendFrom_inv evs (sendStep s (.frame f))
                (by simp [sendStep, hp, hq])
              refine ⟨ih.1, ih.2.trans ?_⟩
              simp only [sendStep, hp, hq, frameIds, List.filterMap_cons,
                List.append_assoc, List.singleton_append, List.nil_append]
              exact List.Sublist.refl _
          | sessionNoSend =>
              have hq : s.queuedThen = [] := h (by simp [hp])
              have ih := runSendFrom_inv evs (sendStep s (.frame f))
                (by simp [sendStep, hp, hq])
              refine ⟨ih.1, ih.2.trans ?_⟩
              simp only [sendStep, hp, hq, frameIds, List.filterMap_cons,
                List.nil_append]
              exact (List.append_sublist_append_left _).2
                (List.sublist_cons_self f _)
          | rejected =>
              have hq : s.queuedThen = [] := h (by simp [hp])
              have ih := runSendFrom_inv evs (sendStep s (.frame f))
                (by simp [sendStep, hp, hq])
              refine ⟨ih.1, ih.2.trans ?_⟩
              simp only [sendStep, hp, hq, frameIds, List.filterMap_cons,
                List.nil_append]
              exact (List.append_sublist_append_left _).2
                (List.sublist_cons_self f _)
      | resolveReady =>
          cases hp : s.promise with
          | pending =>
              have ih := runSendFrom_inv evs (sendStep s .resolveReady)
                (by simp [sendStep, hp])
              refine ⟨ih.1, ih.2.trans ?_⟩
              simp only [sendStep, hp, frameIds, List.filterMap_cons,
                List.append_nil, List.append_assoc]
              exact List.Sublist.refl _
          | readySession =>
              have hq : s.queuedThen = [] := h (by simp [hp])
              have ih := runSendFrom_inv evs (sendStep s .resolveReady)
                (by simp [sendStep, hp, hq])
              refine ⟨ih.1, ih.2.trans ?_⟩
              simp only [sendStep, hp, hq, frameIds, List.filterMap_cons]
              exact List.Sublist.refl _
          | sessionNoSend =>
              have hq : s.queuedThen = [] := h (by simp [hp])
              have ih := runSendFrom_inv evs (sendStep s .resolveReady)
                (by simp [sendStep, hp, hq])
              refine ⟨ih.1, ih.2.trans ?_⟩
              simp only [sendStep, hp, hq, frameIds, List.filterMap_cons]
              exact List.Sublist.refl _
          | rejected =>
              have hq : s.queuedThen = [] := h (by simp [hp])
              have ih := runSendFrom_inv evs (sendStep s .resolveReady)
                (by simp [sendStep, hp, hq])
              refine ⟨ih.1, ih.2.trans ?_⟩
              simp only [sendStep, hp, hq, frameIds, List.filterMap_cons]
              exact List.Sublist.refl _
      | resolveNoSend =>
          cases hp : s.promise with
          | pending =>
              have ih := runSendFrom_inv evs (sendStep s .resolveNoSend)
                (by simp [sendStep, hp])
              refine ⟨ih.1, ih.2.trans ?_⟩
              simp only [sendStep, hp, frameIds, List.filterMap_cons,
                List.append_nil, List.nil_append]
              exact (List.append_sublist_append_left _).2
                (List.sublist_append_right _ _)
          | readySession =>
              have hq : s.queuedThen = [] := h (by simp [hp])
              have ih := runSendFrom_inv evs (sendStep s .resolveNoSend)
                (by simp [sendStep, hp, hq])
              refine ⟨ih.1, ih.2.trans ?_⟩
              simp only [sendStep, hp, hq, frameIds, List.filterMap_cons]
              exact List.Sublist.refl _
          | sessionNoSend =>
              have hq : s.queuedThen = [] := h (by simp [hp])
              have ih := runSendFrom_inv evs (sendStep s .resolveNoSend)
                (by simp [sendStep, hp, hq])
              refine ⟨ih.1, ih.2.trans ?_⟩
              simp only [sendStep, hp, hq, frameIds, List.filterMap_cons]
              exact List.Sublist.refl _
          | rejected =>
              have hq : s.queuedThen = [] := h (by simp [hp])
              have ih := runSendFrom_inv evs (sendStep s .resolveNoSend)
                (by simp [sendStep, hp, hq])
              refine ⟨ih.1, ih.2.trans ?_⟩
              simp only [sendStep, hp, hq, frameIds, List.filterMap_cons]
              exact List.Sublist.refl _
      | reject =>
          cases hp : s.promise with
          | pending =>
              have ih := runSendFrom_inv evs (sendStep s .reject)
                (by simp [sendStep, hp])
              refine ⟨ih.1, ih.2.trans ?_⟩
              simp only [sendStep, hp, frameIds, List.filterMap_cons,
                List.append_nil, List.nil_append]
              exact (List.append_sublist_append_left _).2
                (List.sublist_append_right _ _)
          | readySession =>
              have hq : s.queuedThen = [] := h (by simp [hp])
              have ih := runSendFrom_inv evs (sendStep s .reject)
                (by simp [sendStep, hp, hq])
              refine ⟨ih.1, ih.2.trans ?_⟩
              simp only [sendStep, hp, hq, frameIds, List.filterMap_cons]
              exact List.Sublist.refl _
          | sessionNoSend =>
              have hq : s.queuedThen = [] := h (by simp [hp])
              have ih := runSendFrom_inv evs (sendStep s .reject)
                (by simp [sendStep, hp, hq])
              refine ⟨ih.1, ih.2.trans ?_⟩
              simp only [sendStep, hp, hq, frameIds, List.filterMap_cons]
              exact List.Sublist.refl _
          | rejected =>
              have hq : s.queuedThen = [] := h (by simp [hp])
              have ih := runSendFrom_inv evs (sendStep s .reject)
                (by simp [sendStep, hp, hq])
              refine ⟨ih.1, ih.2.trans ?_⟩
              simp only [sendStep, hp, hq, frameIds, List.filterMap_cons]
              exact List.Sublist.refl _

/-- C6, counterexample: a frame that arrives while the connection promise
is still pending (Transport not yet ready) is not discarded — its `.then`
continuation is queued on the promise and the frame is sent once the
promise resolves. -/
theorem C6_pending_send_queued :
    (runSend [SendEvent.frame 0, SendEvent.resolveReady]).sent = [0] ∧
    (runSend [SendEvent.frame 0, SendEvent.resolveReady]).sent ≠ [] := by
  decide

/-- C6, amended: each captured frame registers exactly one send
continuation; the frames actually sent form a subsequence of the frames
in arrival order (no retry, no duplication, no reordering, no blocking of
later frames), and a frame arriving after the connection promise has
rejected is discarded silently by the `.catch` handler, leaving the state
unchanged.  A frame arriving while the promise is pending, however, is
deferred on the promise, not discarded. -/
theorem C6_amended_frame_sends (evs : List SendEvent) (sR sN : SendState)
    (f g : ℕ) (hrej : sR.promise = PromiseState.rejected)
    (hns : sN.promise = PromiseState.sessionNoSend) :
    List.Sublist (runSend evs).sent (frameIds evs) ∧
    sendStep sR (SendEvent.frame f) = sR ∧
    sendStep sN (SendEvent.frame g) = sN := by
  refine ⟨?_, ?_, ?_⟩
  · have h := runSendFrom_inv evs initSendState (fun _ => rfl)
    exact (List.sublist_append_left _ _).trans h.2
  · simp [sendStep, hrej]
  · simp [sendStep, hns]

/-- Witness for C6 (amended): a trace with a frame before rejection and a
frame after it sends nothing, and a frame hitting either a rejected
promise or a session without `sendRealtimeInput` leaves the outbound
state untouched. -/
theorem C6_amended_frame_sends_witness :
    (⟨PromiseState.rejected, [], []⟩ : SendState).promise
        = PromiseState.rejected ∧
    (⟨PromiseState.sessionNoSend, [], [5]⟩ : SendState).promise
        = PromiseState.sessionNoSend ∧
    (List.Sublist
        (runSend [SendEvent.frame 0, SendEvent.reject, SendEvent.frame 1]).sent
        (frameIds [SendEvent.frame 0, SendEvent.reject, SendEvent.frame 1]) ∧
      sendStep ⟨PromiseState.rejected, [], []⟩ (SendEvent.frame 2)
        = ⟨PromiseState.rejected, [], []⟩ ∧
      sendStep ⟨PromiseState.sessionNoSend, [], [5]⟩ (SendEvent.frame 3)
        = ⟨PromiseState.sessionNoSend, [], [5]⟩) :=
  ⟨rfl, rfl, C6_amended_frame_sends
    [SendEvent.frame 0, SendEvent.reject, SendEvent.frame 1]
    ⟨PromiseState.rejected, [], []⟩
    ⟨PromiseState.sessionNoSend, [], [5]⟩ 2 3 rfl rfl⟩

end LiveAudio
